import Mathlib

/-!
Verification of the mistral api-proxy streaming translation pipeline
(`src/stacks/mistral/api-proxy`).

Text is modelled as `List Nat`:
* raw transport bytes are lists of byte values (0..255);
* decoded Rust `String`s are lists of Unicode codepoints (the result of
  `String::from_utf8_lossy`).

All definitions are executable; stateful Rust loops are embedded as
explicit state-passing functions, and fallible operations return `Option`
or `Except`.
-/

set_option maxHeartbeats 2000000
set_option maxRecDepth 10000

/-- Codepoints of a Lean string literal, used to transcribe the Rust string
constants appearing in the source. -/
def cps (s : String) : List Nat := s.toList.map Char.toNat

/-- Byte length that a Unicode codepoint occupies in UTF-8; this is what
Rust's `String::len` sums over the characters of a string. -/
def cpSize (c : Nat) : Nat :=
  if c < 0x80 then 1 else if c < 0x800 then 2 else if c < 0x10000 then 3 else 4

/-- Byte length of a decoded string (Rust `String::len`). -/
def cpLen (l : List Nat) : Nat := (l.map cpSize).sum

theorem cpLen_append (a b : List Nat) : cpLen (a ++ b) = cpLen a + cpLen b := by
  simp [cpLen]

theorem cpLen_ge_length (l : List Nat) : l.length ≤ cpLen l := by
  induction l with
  | nil => simp [cpLen]
  | cons c t ih =>
    have hc : 1 ≤ cpSize c := by unfold cpSize; split_ifs <;> omega
    simp only [cpLen, List.map_cons, List.sum_cons, List.length_cons] at *
    omega

/-- Is `b` a UTF-8 continuation byte (`0x80..=0xBF`)? -/
def utf8Cont (b : Nat) : Prop := 0x80 ≤ b ∧ b ≤ 0xBF

instance (b : Nat) : Decidable (utf8Cont b) := by unfold utf8Cont; infer_instance

/-- One step of UTF-8 decoding with U+FFFD substitution of maximal subparts,
as performed by Rust's `String::from_utf8_lossy`.  Given the first byte and
the remaining bytes, returns the decoded codepoint together with how many
additional bytes (taken from `rest`) the step consumed. -/
def utf8Step (b : Nat) (rest : List Nat) : Nat × Nat :=
  if b < 0x80 then (b, 0)
  else if b < 0xC2 then (0xFFFD, 0)
  else if b ≤ 0xDF then
    match rest with
    | b2 :: _ => if utf8Cont b2 then ((b - 0xC0) * 64 + (b2 - 0x80), 1) else (0xFFFD, 0)
    | [] => (0xFFFD, 0)
  else if b ≤ 0xEF then
    match rest with
    | b2 :: rest2 =>
      if (if b = 0xE0 then 0xA0 else 0x80) ≤ b2 ∧ b2 ≤ (if b = 0xED then 0x9F else 0xBF) then
        match rest2 with
        | b3 :: _ =>
          if utf8Cont b3 then ((b - 0xE0) * 4096 + (b2 - 0x80) * 64 + (b3 - 0x80), 2)
          else (0xFFFD, 1)
        | [] => (0xFFFD, 1)
      else (0xFFFD, 0)
    | [] => (0xFFFD, 0)
  else if b ≤ 0xF4 then
    match rest with
    | b2 :: rest2 =>
      if (if b = 0xF0 then 0x90 else 0x80) ≤ b2 ∧ b2 ≤ (if b = 0xF4 then 0x8F else 0xBF) then
        match rest2 with
        | b3 :: rest3 =>
          if utf8Cont b3 then
            match rest3 with
            | b4 :: _ =>
              if utf8Cont b4 then
                ((b - 0xF0) * 262144 + (b2 - 0x80) * 4096 + (b3 - 0x80) * 64 + (b4 - 0x80), 3)
              else (0xFFFD, 2)
            | [] => (0xFFFD, 2)
          else (0xFFFD, 1)
        | [] => (0xFFFD, 1)
      else (0xFFFD, 0)
    | [] => (0xFFFD, 0)
  else (0xFFFD, 0)

theorem utf8Step_extra_le (b : Nat) (rest : List Nat) :
    (utf8Step b rest).2 ≤ rest.length := by
  unfold utf8Step
  repeat' split
  all_goals simp_arith

theorem utf8Step_size (b : Nat) (rest : List Nat) :
    1 + (utf8Step b rest).2 ≤ cpSize (utf8Step b rest).1 := by
  unfold utf8Step
  repeat' split
  all_goals try simp_all only [utf8Cont, not_lt]
  all_goals simp only [cpSize]
  all_goals split_ifs <;> omega

/-- Fuelled UTF-8 lossy decoder; `fuel` only needs to be at least the length
of the input (each step consumes at least one byte). -/
def utf8LossyF : Nat → List Nat → List Nat
  | 0, _ => []
  | _, [] => []
  | f + 1, b :: rest =>
    let s := utf8Step b rest
    s.1 :: utf8LossyF f (rest.drop s.2)

/-- Model of Rust `String::from_utf8_lossy`: decode a byte list into the
list of codepoints, substituting U+FFFD for each maximal invalid subpart. -/
def utf8Lossy (l : List Nat) : List Nat := utf8LossyF l.length l

theorem utf8LossyF_len (f : Nat) :
    ∀ l : List Nat, l.length ≤ f → l.length ≤ cpLen (utf8LossyF f l) := by
  induction f with
  | zero => intro l h; simp only [utf8LossyF, cpLen, List.map_nil, List.sum_nil]; omega
  | succ f ih =>
    intro l h
    match l with
    | [] => simp
    | b :: rest =>
      have hk := utf8Step_extra_le b rest
      have hs := utf8Step_size b rest
      have hrec := ih ((rest.drop (utf8Step b rest).2))
        (by simp only [List.length_drop]; simp at h; omega)
      simp only [utf8LossyF, cpLen, List.map_cons, List.sum_cons, List.length_cons]
      simp only [cpLen] at hrec
      simp only [List.length_drop] at hrec
      omega

/-- The lossy decoding of a byte list is at least as long, in UTF-8 bytes,
as the raw input (valid sequences keep their length, and each maximal
invalid subpart of 1-3 bytes becomes the 3-byte U+FFFD). -/
theorem utf8Lossy_len (l : List Nat) : l.length ≤ cpLen (utf8Lossy l) :=
  utf8LossyF_len l.length l (Nat.le_refl _)

/-! ## Frame reassembly (`handle_streaming_request`, chat.rs lines 250-268)

The producer task accumulates decoded text in `buffer`, and repeatedly
drains everything up to and including the next `'\n'`
(`buffer.drain(..=line_end)`), trims the line, and processes it.  The
line-splitting part is embedded on its own here (the spec's Frame
Reassembler component); the full per-line processing follows later. -/

/-- Unicode `White_Space` codepoints, the set trimmed by Rust's
`str::trim` (via `char::is_whitespace`). -/
def wsCps : List Nat :=
  [9, 10, 11, 12, 13, 32, 133, 160, 5760, 8192, 8193, 8194, 8195, 8196, 8197,
   8198, 8199, 8200, 8201, 8202, 8232, 8233, 8239, 8287, 12288]

/-- Is the codepoint whitespace in the sense of Rust `char::is_whitespace`? -/
def isWsCp (c : Nat) : Bool := wsCps.contains c

/-- Model of Rust `str::trim`: remove leading and trailing whitespace. -/
def trim (l : List Nat) : List Nat :=
  ((l.dropWhile isWsCp).reverse.dropWhile isWsCp).reverse

/-- Split a buffer into its complete newline-terminated lines (each line
keeps its trailing `'\n'`, matching `buffer.drain(..=line_end)`) and the
trailing remainder that stays buffered. -/
def splitLinesAll : List Nat → List (List Nat) × List Nat
  | [] => ([], [])
  | c :: cs =>
    let p := splitLinesAll cs
    if c = 10 then ([10] :: p.1, p.2)
    else
      match p.1 with
      | [] => ([], c :: p.2)
      | l :: ls => ((c :: l) :: ls, p.2)

/-- The trimmed non-empty lines of a line list: the frames the reassembler
hands to per-line processing. -/
def framesLines (ls : List (List Nat)) : List (List Nat) :=
  (ls.map trim).filter (fun l => !l.isEmpty)

theorem splitLinesAll_cons (x : Nat) (xs : List Nat) :
    splitLinesAll (x :: xs) =
      if x = 10 then ([10] :: (splitLinesAll xs).1, (splitLinesAll xs).2)
      else
        match (splitLinesAll xs).1 with
        | [] => ([], x :: (splitLinesAll xs).2)
        | l :: ls => ((x :: l) :: ls, (splitLinesAll xs).2) := rfl

theorem splitLinesAll_join (l : List Nat) :
    (splitLinesAll l).1.flatten ++ (splitLinesAll l).2 = l := by
  induction l with
  | nil => rfl
  | cons c cs ih =>
    rw [splitLinesAll_cons]
    by_cases hc : c = 10
    · rw [if_pos hc, hc]
      simpa using ih
    · rw [if_neg hc]
      cases hp : (splitLinesAll cs).1 with
      | nil =>
        rw [hp] at ih
        simpa using ih
      | cons l ls =>
        rw [hp] at ih
        simp only [List.flatten_cons, List.append_assoc] at ih ⊢
        simpa using ih

theorem splitLinesAll_no_nl (l : List Nat) : 10 ∉ (splitLinesAll l).2 := by
  induction l with
  | nil => simp [splitLinesAll]
  | cons c cs ih =>
    rw [splitLinesAll_cons]
    by_cases hc : c = 10
    · rw [if_pos hc]; simpa using ih
    · rw [if_neg hc]
      cases hp : (splitLinesAll cs).1 with
      | nil =>
        simp only [List.mem_cons, not_or]
        exact ⟨fun h => hc h.symm, ih⟩
      | cons l ls => simpa using ih

theorem splitLinesAll_of_no_nl (l : List Nat) (h : 10 ∉ l) :
    splitLinesAll l = ([], l) := by
  induction l with
  | nil => rfl
  | cons c cs ih =>
    simp only [List.mem_cons, not_or] at h
    rw [splitLinesAll_cons, ih h.2, if_neg (fun hc => h.1 hc.symm)]

theorem splitLinesAll_append (a b : List Nat) :
    splitLinesAll (a ++ b) =
      ((splitLinesAll a).1 ++ (splitLinesAll ((splitLinesAll a).2 ++ b)).1,
       (splitLinesAll ((splitLinesAll a).2 ++ b)).2) := by
  induction a with
  | nil => simp [splitLinesAll]
  | cons c cs ih =>
    have h1 : (splitLinesAll (cs ++ b)).1
        = (splitLinesAll cs).1 ++ (splitLinesAll ((splitLinesAll cs).2 ++ b)).1 := by
      rw [ih]
    have h2 : (splitLinesAll (cs ++ b)).2
        = (splitLinesAll ((splitLinesAll cs).2 ++ b)).2 := by
      rw [ih]
    by_cases hc : c = 10
    · rw [List.cons_append, splitLinesAll_cons, splitLinesAll_cons,
        if_pos hc, if_pos hc, h1, h2]
      simp
    · rw [List.cons_append, splitLinesAll_cons, splitLinesAll_cons,
        if_neg hc, if_neg hc]
      cases hp : (splitLinesAll cs).1 with
      | nil =>
        rw [hp] at h1
        simp only [List.nil_append] at h1
        rw [List.cons_append, splitLinesAll_cons, if_neg hc, ← h1, ← h2]
        cases hq : (splitLinesAll (cs ++ b)).1 <;> simp
      | cons l ls =>
        rw [hp] at h1
        rw [h1, h2]
        simp

theorem splitLinesAll_rem_len (l : List Nat) :
    (splitLinesAll l).2.length ≤ l.length := by
  conv_rhs => rw [← splitLinesAll_join l]
  simp

theorem cpLen_splitLinesAll_rem (l : List Nat) :
    cpLen (splitLinesAll l).2 ≤ cpLen l := by
  conv_rhs => rw [← splitLinesAll_join l]
  rw [cpLen_append]
  omega

theorem framesLines_append (a b : List (List Nat)) :
    framesLines (a ++ b) = framesLines a ++ framesLines b := by
  simp [framesLines]

/-- One `feed` of the Frame Reassembler over decoded text, without the
size ceiling: append the chunk, extract all complete lines, and return
the frames (trimmed, non-empty) together with the new buffer. -/
def feedFrames (buf chunk : List Nat) : List (List Nat) × List Nat :=
  let p := splitLinesAll (buf ++ chunk)
  (framesLines p.1, p.2)

/-- Feed a list of decoded chunks through the Frame Reassembler under the
size ceiling `maxLen`: each chunk is appended, the buffer length is checked
against the ceiling (`buffer.len() > max_line_length` aborts), and the
complete lines are drained.  Returns `none` when some append overflows. -/
def feedAllC (maxLen : Nat) : List Nat → List (List Nat) → Option (List (List Nat))
  | _, [] => some []
  | buf, c :: cs =>
    let b := buf ++ c
    if maxLen < cpLen b then none
    else
      let p := feedFrames [] b
      (feedAllC maxLen p.2 cs).map (fun fs => p.1 ++ fs)

/-- Byte-level Frame Reassembler: each transport chunk is first decoded
with `from_utf8_lossy` and then fed to the reassembler. -/
def feedAllBytesC (maxLen : Nat) (buf : List Nat) (chunks : List (List Nat)) :
    Option (List (List Nat)) :=
  feedAllC maxLen buf (chunks.map utf8Lossy)

theorem feedAllC_eq (maxLen : Nat) :
    ∀ (chunks : List (List Nat)) (buf : List Nat), 10 ∉ buf →
      cpLen buf + cpLen chunks.flatten ≤ maxLen →
      feedAllC maxLen buf chunks
        = some (framesLines (splitLinesAll (buf ++ chunks.flatten)).1) := by
  intro chunks
  induction chunks with
  | nil =>
    intro buf hnl _
    simp [feedAllC, splitLinesAll_of_no_nl buf hnl, framesLines]
  | cons c cs ih =>
    intro buf hnl h
    simp only [List.flatten_cons, cpLen_append] at h
    have hno : ¬ maxLen < cpLen (buf ++ c) := by
      rw [cpLen_append]; omega
    have hrem : cpLen (splitLinesAll (buf ++ c)).2 ≤ cpLen buf + cpLen c := by
      have := cpLen_splitLinesAll_rem (buf ++ c)
      rwa [cpLen_append] at this
    have hrec := ih (splitLinesAll (buf ++ c)).2 (splitLinesAll_no_nl _) (by omega)
    simp only [feedAllC, if_neg hno, feedFrames, List.nil_append, hrec, Option.map_some]
    have hsplit := splitLinesAll_append (buf ++ c) cs.flatten
    rw [List.flatten_cons, ← List.append_assoc, hsplit]
    simp [framesLines_append]

/-! ## JSON values and parsing

The proxy uses `serde_json` to parse stream-chunk payloads and backend
responses, and to build the outbound records.  JSON values and the parts
of `serde_json`'s behaviour the proxy relies on are modelled here: a JSON
text parser over codepoint lists and the derived deserializers of the
structs in `src/models/mistral.rs` (all struct fields without `Option`
type are required; unknown fields are ignored; `Option` fields treat a
missing key and an explicit `null` alike).  Fractional and exponent
number literals are represented exactly as scaled decimals. -/

inductive Json where
  | null
  | bool (b : Bool)
  | num (n : Int)
  | dec (mantissa : Int) (exp10 : Int)
  | str (s : List Nat)
  | arr (elems : List Json)
  | obj (fields : List (List Nat × Json))

/-- JSON insignificant whitespace accepted by `serde_json`. -/
def skipJWs (l : List Nat) : List Nat :=
  l.dropWhile (fun c => c == 32 || c == 9 || c == 10 || c == 13)

def hexVal (c : Nat) : Option Nat :=
  if 48 ≤ c ∧ c ≤ 57 then some (c - 48)
  else if 97 ≤ c ∧ c ≤ 102 then some (c - 87)
  else if 65 ≤ c ∧ c ≤ 70 then some (c - 55)
  else none

/-- Parse the body of a JSON string literal (after the opening quote),
returning the decoded codepoints and the rest of the input.  Surrogate
escape pairs are not recombined (they do not occur in the inputs treated
here). -/
def parseStrBody : List Nat → Option (List Nat × List Nat)
  | [] => none
  | 34 :: rest => some ([], rest)
  | 92 :: 34 :: rest => (parseStrBody rest).map (fun p => (34 :: p.1, p.2))
  | 92 :: 92 :: rest => (parseStrBody rest).map (fun p => (92 :: p.1, p.2))
  | 92 :: 47 :: rest => (parseStrBody rest).map (fun p => (47 :: p.1, p.2))
  | 92 :: 98 :: rest => (parseStrBody rest).map (fun p => (8 :: p.1, p.2))
  | 92 :: 102 :: rest => (parseStrBody rest).map (fun p => (12 :: p.1, p.2))
  | 92 :: 110 :: rest => (parseStrBody rest).map (fun p => (10 :: p.1, p.2))
  | 92 :: 114 :: rest => (parseStrBody rest).map (fun p => (13 :: p.1, p.2))
  | 92 :: 116 :: rest => (parseStrBody rest).map (fun p => (9 :: p.1, p.2))
  | 92 :: 117 :: h1 :: h2 :: h3 :: h4 :: rest =>
    match hexVal h1, hexVal h2, hexVal h3, hexVal h4 with
    | some a, some b, some c, some d =>
      (parseStrBody rest).map (fun p => ((((a * 16 + b) * 16 + c) * 16 + d) :: p.1, p.2))
    | _, _, _, _ => none
  | 92 :: _ => none
  | c :: rest =>
    if c < 32 then none else (parseStrBody rest).map (fun p => (c :: p.1, p.2))

def isDigitCp (c : Nat) : Bool := 48 ≤ c && c ≤ 57

def digitsToNat (ds : List Nat) : Nat := ds.foldl (fun a c => a * 10 + (c - 48)) 0

/-- Parse a JSON number literal.  Integer literals become `Json.num`;
literals with a fraction or exponent become the exact scaled decimal
`Json.dec mantissa exp10`. -/
def parseNum (l : List Nat) : Option (Json × List Nat) :=
  let sgn : Bool × List Nat := match l with
    | 45 :: t => (true, t)
    | _ => (false, l)
  let ds := sgn.2.takeWhile isDigitCp
  let r1 := sgn.2.dropWhile isDigitCp
  if ds.isEmpty then none
  else
    let intPart := digitsToNat ds
    match r1 with
    | 46 :: r2 =>
      let fs := r2.takeWhile isDigitCp
      let r3 := r2.dropWhile isDigitCp
      if fs.isEmpty then none
      else
        let mant := intPart * 10 ^ fs.length + digitsToNat fs
        let m : Int := if sgn.1 then -(Int.ofNat mant) else Int.ofNat mant
        match r3 with
        | 101 :: r4 => parseExp m (-(Int.ofNat fs.length)) r4
        | 69 :: r4 => parseExp m (-(Int.ofNat fs.length)) r4
        | _ => some (.dec m (-(Int.ofNat fs.length)), r3)
    | 101 :: r2 => parseExp (if sgn.1 then -(Int.ofNat intPart) else Int.ofNat intPart) 0 r2
    | 69 :: r2 => parseExp (if sgn.1 then -(Int.ofNat intPart) else Int.ofNat intPart) 0 r2
    | _ => some (.num (if sgn.1 then -(Int.ofNat intPart) else Int.ofNat intPart), r1)
where
  parseExp (m : Int) (e0 : Int) (l : List Nat) : Option (Json × List Nat) :=
    let esgn : Bool × List Nat := match l with
      | 45 :: t => (true, t)
      | 43 :: t => (false, t)
      | _ => (false, l)
    let es := esgn.2.takeWhile isDigitCp
    let r := esgn.2.dropWhile isDigitCp
    if es.isEmpty then none
    else
      let e : Int := Int.ofNat (digitsToNat es)
      some (.dec m (e0 + (if esgn.1 then -e else e)), r)

/-- Parser modes: a value, the members of an object (after `{`), or the
elements of an array (after `[`), with the fields or elements read so far. -/
inductive PMode where
  | val
  | members (acc : List (List Nat × Json))
  | elems (acc : List Json)

/-- Fuelled recursive-descent JSON parser (model of `serde_json`'s text
grammar).  `fuel` bounds the recursion depth; `jsonParse` supplies enough
fuel for any input. -/
def parseJ : Nat → PMode → List Nat → Option (Json × List Nat)
  | 0, _, _ => none
  | f + 1, .val, l =>
    match skipJWs l with
    | 34 :: r => (parseStrBody r).map (fun p => (.str p.1, p.2))
    | 123 :: r =>
      match skipJWs r with
      | 125 :: r2 => some (.obj [], r2)
      | r2 => parseJ f (.members []) r2
    | 91 :: r =>
      match skipJWs r with
      | 93 :: r2 => some (.arr [], r2)
      | r2 => parseJ f (.elems []) r2
    | 116 :: 114 :: 117 :: 101 :: r => some (.bool true, r)
    | 102 :: 97 :: 108 :: 115 :: 101 :: r => some (.bool false, r)
    | 110 :: 117 :: 108 :: 108 :: r => some (.null, r)
    | l2 => parseNum l2
  | f + 1, .members acc, l =>
    match skipJWs l with
    | 34 :: r =>
      match parseStrBody r with
      | none => none
      | some (key, r2) =>
        match skipJWs r2 with
        | 58 :: r3 =>
          match parseJ f .val r3 with
          | none => none
          | some (v, r4) =>
            match skipJWs r4 with
            | 44 :: r5 => parseJ f (.members (acc ++ [(key, v)])) r5
            | 125 :: r5 => some (.obj (acc ++ [(key, v)]), r5)
            | _ => none
        | _ => none
    | _ => none
  | f + 1, .elems acc, l =>
    match parseJ f .val l with
    | none => none
    | some (v, r) =>
      match skipJWs r with
      | 44 :: r2 => parseJ f (.elems (acc ++ [v])) r2
      | 93 :: r2 => some (.arr (acc ++ [v]), r2)
      | _ => none

/-- Model of `serde_json::from_str`'s text-level parsing: one JSON value,
then nothing but whitespace. -/
def jsonParse (l : List Nat) : Option Json :=
  match parseJ (2 * l.length + 2) .val l with
  | some (v, r) => if (skipJWs r).isEmpty then some v else none
  | none => none

/-- First value bound to key `k` in a JSON object (`none` for non-objects
or absent keys). -/
def jGet (v : Json) (k : List Nat) : Option Json :=
  match v with
  | .obj fs => (fs.find? (fun p => p.1 == k)).map (fun p => p.2)
  | _ => none

def asStr : Json → Option (List Nat)
  | .str s => some s
  | _ => none

/-- Deserialize an `i64` field: an integer literal within the `i64` range. -/
def asI64 : Json → Option Int
  | .num n => if -9223372036854775808 ≤ n ∧ n ≤ 9223372036854775807 then some n else none
  | _ => none

/-- Deserialize an `i32` field: an integer literal within the `i32` range. -/
def asI32 : Json → Option Int
  | .num n => if -2147483648 ≤ n ∧ n ≤ 2147483647 then some n else none
  | _ => none

def reqStr (v : Json) (k : List Nat) : Option (List Nat) := (jGet v k).bind asStr

/-- An `Option<T>` struct field under serde: a missing key or `null`
becomes `none`; a present value must deserialize. -/
def optField {α : Type} (f : Json → Option α) (v : Json) (k : List Nat) :
    Option (Option α) :=
  match jGet v k with
  | none => some none
  | some .null => some none
  | some w => (f w).map some

/-! ## Backend schema (`src/models/mistral.rs`) and client schema
(`src/models/ollama.rs`), restricted to the parts the claims touch. -/

structure MistralMessage where
  role : List Nat
  content : List Nat
deriving DecidableEq

structure MistralChoice where
  index : Int
  message : Option MistralMessage
  delta : Option MistralMessage
  finish_reason : Option (List Nat)
deriving DecidableEq

structure MistralStreamChunk where
  id : List Nat
  object : List Nat
  created : Int
  model : List Nat
  choices : List MistralChoice
deriving DecidableEq

structure MistralUsage where
  prompt_tokens : Int
  completion_tokens : Int
  total_tokens : Int
deriving DecidableEq

structure MistralChatResponse where
  id : List Nat
  object : List Nat
  created : Int
  model : List Nat
  choices : List MistralChoice
  usage : Option MistralUsage
deriving DecidableEq

structure OllamaMessage where
  role : List Nat
  content : List Nat
deriving DecidableEq

structure OllamaChatResponse where
  model : List Nat
  created_at : List Nat
  message : OllamaMessage
  done : Bool
  total_duration : Option Int
  load_duration : Option Int
  prompt_eval_count : Option Int
  prompt_eval_duration : Option Int
  eval_count : Option Int
  eval_duration : Option Int
deriving DecidableEq

structure OllamaGenerateResponse where
  model : List Nat
  created_at : List Nat
  response : List Nat
  done : Bool
  context : Option (List Int)
  total_duration : Option Int
  load_duration : Option Int
  prompt_eval_count : Option Int
  prompt_eval_duration : Option Int
  eval_count : Option Int
  eval_duration : Option Int
deriving DecidableEq

structure OllamaModel where
  name : List Nat
  modified_at : List Nat
  size : Int
  digest : List Nat
deriving DecidableEq

structure OllamaListResponse where
  models : List OllamaModel
deriving DecidableEq

/-- Serde-derived deserializer of `MistralMessage`: `role` and `content`
are required string fields. -/
def deserMistralMessage (v : Json) : Option MistralMessage := do
  let role ← reqStr v (cps "role")
  let content ← reqStr v (cps "content")
  pure ⟨role, content⟩

/-- Serde-derived deserializer of `MistralChoice`: `index: i32` is
required; `message`, `delta`, `finish_reason` are `Option` fields. -/
def deserMistralChoice (v : Json) : Option MistralChoice := do
  let index ← (jGet v (cps "index")).bind asI32
  let message ← optField deserMistralMessage v (cps "message")
  let delta ← optField deserMistralMessage v (cps "delta")
  let fr ← optField asStr v (cps "finish_reason")
  pure ⟨index, message, delta, fr⟩

/-- Serde-derived deserializer of `MistralStreamChunk`: `id`, `object`,
`created`, `model` and `choices` are all required fields. -/
def deserMistralStreamChunk (v : Json) : Option MistralStreamChunk := do
  let id ← reqStr v (cps "id")
  let object ← reqStr v (cps "object")
  let created ← (jGet v (cps "created")).bind asI64
  let model ← reqStr v (cps "model")
  match jGet v (cps "choices") with
  | some (.arr xs) => do
    let cs ← xs.mapM deserMistralChoice
    pure ⟨id, object, created, model, cs⟩
  | _ => none

/-- `serde_json::from_str::<MistralStreamChunk>` as used at chat.rs:278. -/
def parseStreamChunk (payload : List Nat) : Option MistralStreamChunk :=
  (jsonParse payload).bind deserMistralStreamChunk

/-! ## Outbound record builders (`src/converters.rs`)

`Utc::now().to_rfc3339()` is a clock read; the embedding passes the
timestamp string in as the explicit parameter `now`. -/

/-- `create_streaming_chunk` (converters.rs lines 64-88). -/
def create_streaming_chunk (modelName content role : List Nat) (isChat : Bool)
    (now : List Nat) : Json :=
  if isChat then
    .obj [(cps "model", .str modelName), (cps "created_at", .str now),
          (cps "message", .obj [(cps "role", .str role), (cps "content", .str content)]),
          (cps "done", .bool false)]
  else
    .obj [(cps "model", .str modelName), (cps "created_at", .str now),
          (cps "response", .str content), (cps "done", .bool false)]

/-- `create_done_chunk` (converters.rs lines 90-96). -/
def create_done_chunk (modelName now : List Nat) : Json :=
  .obj [(cps "done", .bool true), (cps "model", .str modelName),
        (cps "created_at", .str now)]

/-- `convert_mistral_to_ollama_chat` (converters.rs lines 7-36). -/
def convert_mistral_to_ollama_chat (resp : MistralChatResponse)
    (modelName now : List Nat) : OllamaChatResponse :=
  { model := modelName
    created_at := now
    message :=
      match (resp.choices.head?.bind (fun c => c.message)) with
      | some m => ⟨m.role, m.content⟩
      | none => ⟨cps "assistant", []⟩
    done := true
    total_duration := none
    load_duration := none
    prompt_eval_count := resp.usage.map (fun u => u.prompt_tokens)
    prompt_eval_duration := none
    eval_count := resp.usage.map (fun u => u.completion_tokens)
    eval_duration := none }

/-- `convert_mistral_to_ollama_generate` (converters.rs lines 38-62). -/
def convert_mistral_to_ollama_generate (resp : MistralChatResponse)
    (modelName now : List Nat) : OllamaGenerateResponse :=
  { model := modelName
    created_at := now
    response :=
      match (resp.choices.head?.bind (fun c => c.message)) with
      | some m => m.content
      | none => []
    done := true
    context := none
    total_duration := none
    load_duration := none
    prompt_eval_count := resp.usage.map (fun u => u.prompt_tokens)
    prompt_eval_duration := none
    eval_count := resp.usage.map (fun u => u.completion_tokens)
    eval_duration := none }

/-! ## Streaming producer task (`handle_streaming_request`, chat.rs 246-310)

The spawned task reads transport chunks, appends their lossy decoding to
`buffer`, aborts on overflow, and otherwise drains complete lines:
`data: `-prefixed lines are checked against the `[DONE]` sentinel (which
sends the done chunk and breaks out of the inner drain loop), and
otherwise parsed as `MistralStreamChunk`; a first choice carrying a delta
yields a streaming chunk.  Items sent over the mpsc channel are either
`Ok(json)` or `Err(message)`. -/

inductive SentItem where
  | okItem (v : Json)
  | errItem (msg : List Nat)

def dataMark : List Nat := cps "data: "

def doneTok : List Nat := cps "[DONE]"

def overflowMsg : List Nat := cps "Stream buffer overflow"

/-- `strip_prefix`-style removal of a leading pattern. -/
def dropLead : List Nat → List Nat → Option (List Nat)
  | [], l => some l
  | _ :: _, [] => none
  | p :: ps, c :: cs => if p = c then dropLead ps cs else none

/-- `buffer.find('\n')` + `buffer.drain(..=line_end)`: the first
newline-terminated line (including its `'\n'`) and the rest. -/
def splitNl : List Nat → Option (List Nat × List Nat)
  | [] => none
  | c :: cs =>
    if c = 10 then some ([10], cs)
    else
      match splitNl cs with
      | some (l, r) => some (c :: l, r)
      | none => none

/-- The inner `while let Some(line_end) = buffer.find('\n')` drain loop
(chat.rs lines 266-301), with fuel (any fuel at least the number of
complete lines in the buffer computes the loop exactly; the wrapper
`processBuffer` supplies it).  Returns the items sent on the channel, in
order, and the buffer contents left when the loop exits — on the `[DONE]`
sentinel the loop breaks immediately, leaving the rest buffered. -/
def processBufF (modelName : List Nat) (isChat : Bool) (now : List Nat) :
    Nat → List Nat → List SentItem × List Nat
  | 0, buf => ([], buf)
  | f + 1, buf =>
    match splitNl buf with
    | none => ([], buf)
    | some (line, rest) =>
      match dropLead dataMark (trim line) with
      | none => processBufF modelName isChat now f rest
      | some payload =>
        if payload = doneTok then
          ([.okItem (create_done_chunk modelName now)], rest)
        else
          match parseStreamChunk payload with
          | none => processBufF modelName isChat now f rest
          | some ch =>
            match ch.choices.head? with
            | none => processBufF modelName isChat now f rest
            | some choice =>
              match choice.delta with
              | none => processBufF modelName isChat now f rest
              | some d =>
                let p := processBufF modelName isChat now f rest
                (.okItem (create_streaming_chunk modelName d.content d.role isChat now)
                   :: p.1, p.2)

/-- One full drain of the buffer (every loop iteration removes at least
one codepoint, so `length + 1` fuel always runs the loop to completion). -/
def processBuffer (modelName : List Nat) (isChat : Bool) (now buf : List Nat) :
    List SentItem × List Nat :=
  processBufF modelName isChat now (buf.length + 1) buf

/-- One iteration of the outer `while let Some(chunk_result)` loop for a
successfully received chunk (chat.rs lines 252-301): lossy-decode and
append the chunk, fail the stream on overflow (`true` in the last
component means the producer breaks out of the outer loop), otherwise
drain lines.  -/
def stepChunk (maxLen : Nat) (modelName : List Nat) (isChat : Bool)
    (now buf chunkBytes : List Nat) : List SentItem × List Nat × Bool :=
  let b := buf ++ utf8Lossy chunkBytes
  if maxLen < cpLen b then ([.errItem overflowMsg], b, true)
  else
    let p := processBuffer modelName isChat now b
    (p.1, p.2, false)

/-- The producer task run over a list of successfully received transport
chunks: the sequence of items sent to the conveyance channel. -/
def runChunks (maxLen : Nat) (modelName : List Nat) (isChat : Bool)
    (now : List Nat) : List Nat → List (List Nat) → List SentItem
  | _, [] => []
  | buf, c :: cs =>
    let s := stepChunk maxLen modelName isChat now buf c
    if s.2.2 then s.1
    else s.1 ++ runChunks maxLen modelName isChat now s.2.1 cs

/-- A channel item is a `Final` record: a sent JSON object whose `done`
field is `true`.  `create_done_chunk` builds the only such record; the
streaming chunks carry `done: false` (`Partial` records). -/
def isDoneItem : SentItem → Bool
  | .okItem v =>
    match jGet v (cps "done") with
    | some (.bool true) => true
    | _ => false
  | .errItem _ => false

/-! ## Model-name mapping and model listing -/

/-- `translate_model_name` (chat.rs lines 322-330): the client-to-backend
model-name mapping. -/
def translate_model_name (n : List Nat) : List Nat :=
  if n = cps "mistral:latest" then cps "mistral-7b"
  else if n = cps "mistral:7b" then cps "mistral-7b"
  else if n = cps "mixtral:latest" then cps "mixtral-8x7b"
  else if n = cps "mixtral:8x7b" then cps "mixtral-8x7b"
  else n

/-- The backend-to-client name mapping applied to each listed model id
(`handle_list_models`, models.rs lines 52-56). -/
def backendIdToName (id : List Nat) : List Nat :=
  if id = cps "mistral-7b" then cps "mistral:latest"
  else if id = cps "mixtral-8x7b" then cps "mixtral:latest"
  else id ++ cps ":latest"

/-- `model_sizes` constants (config.rs lines 47-52). -/
def MODEL_7B_SIZE : Int := 4100000000

def MODEL_8X7B_SIZE : Int := 47000000000

def MODEL_70B_SIZE : Int := 40000000000

def DEFAULT_MODEL_SIZE : Int := MODEL_7B_SIZE

/-- Is `needle` a leading segment of `l`? (`str::contains` helper). -/
def leadsWith : List Nat → List Nat → Bool
  | [], _ => true
  | _ :: _, [] => false
  | p :: ps, c :: cs => p == c && leadsWith ps cs

/-- Rust `str::contains` on our text model: substring occurrence. -/
def hasSub (needle : List Nat) : List Nat → Bool
  | [] => leadsWith needle []
  | c :: t => leadsWith needle (c :: t) || hasSub needle t

/-- `estimate_model_size` (models.rs lines 72-81): substring matches
checked in source order, first match wins. -/
def estimate_model_size (modelId : List Nat) : Int :=
  if hasSub (cps "7b") modelId then MODEL_7B_SIZE
  else if hasSub (cps "8x7b") modelId then MODEL_8X7B_SIZE
  else if hasSub (cps "70b") modelId then MODEL_70B_SIZE
  else DEFAULT_MODEL_SIZE

/-! ## Error type (`src/error.rs`) and the model-list handler -/

inductive AppError where
  | requestError (message url : List Nat)
  | jsonError (context : List Nat)
  | streamingError (message endpoint : List Nat)
  | internalError (context : List Nat)
deriving DecidableEq

/-- The HTTP status `IntoResponse for AppError` produces
(error.rs lines 34-53). -/
def appErrorStatus : AppError → Nat
  | .requestError _ _ => 502
  | .jsonError _ => 400
  | .streamingError _ _ => 500
  | .internalError _ => 500

/-- An axum handler result: `Ok` renders as HTTP 200 with the JSON body,
`Err` through `AppError`'s `IntoResponse`. -/
def resultStatus {α : Type} : Except AppError α → Nat
  | .ok _ => 200
  | .error e => appErrorStatus e

/-- `reqwest::StatusCode::is_success`: the 2xx range. -/
def isSuccessStatus (s : Nat) : Bool := 200 ≤ s && s < 300

/-- The outcome of the backend `GET /v1/models` call as the handler
observes it: either the send itself fails (connection-level failure, e.g.
connection refused), or an HTTP response arrives with a status and body. -/
inductive BackendCall where
  | transportFailure (message : List Nat)
  | httpResponse (status : Nat) (body : List Nat)

structure MistralModel where
  id : List Nat
  object : List Nat
  created : Int
  owned_by : List Nat
deriving DecidableEq

structure MistralModelsResponse where
  object : List Nat
  data : List MistralModel
deriving DecidableEq

/-- Serde-derived deserializer of `MistralModel`: all four fields
required. -/
def deserMistralModel (v : Json) : Option MistralModel := do
  let id ← reqStr v (cps "id")
  let object ← reqStr v (cps "object")
  let created ← (jGet v (cps "created")).bind asI64
  let owned ← reqStr v (cps "owned_by")
  pure ⟨id, object, created, owned⟩

/-- Serde-derived deserializer of `MistralModelsResponse`. -/
def deserMistralModelsResponse (v : Json) : Option MistralModelsResponse := do
  let object ← reqStr v (cps "object")
  match jGet v (cps "data") with
  | some (.arr xs) => do
    let ms ← xs.mapM deserMistralModel
    pure ⟨object, ms⟩
  | _ => none

/-- The fixed fallback model list built when the backend answers with a
non-success status (models.rs lines 23-36). -/
def defaultModels (now : List Nat) : List OllamaModel :=
  [⟨cps "mistral:latest", now, MODEL_7B_SIZE, cps "default"⟩,
   ⟨cps "mistral:7b", now, MODEL_7B_SIZE, cps "default"⟩]

/-- `handle_list_models` (models.rs lines 10-70) as a function of the
backend call outcome.  A connection-level failure propagates as
`AppError::request_error` via `?`; a non-success status yields the
fallback list; a success status parses the body (a parse failure again
propagates as a request error) and maps each model. -/
def handle_list_models (now url : List Nat) (r : BackendCall) :
    Except AppError OllamaListResponse :=
  match r with
  | .transportFailure msg => .error (.requestError msg url)
  | .httpResponse status body =>
    if !isSuccessStatus status then .ok ⟨defaultModels now⟩
    else
      match (jsonParse body).bind deserMistralModelsResponse with
      | none => .error (.requestError (cps "error decoding response body") url)
      | some mr =>
        .ok ⟨mr.data.map (fun m =>
          ⟨backendIdToName m.id, now, estimate_model_size m.id,
           cps "sha256:" ++ m.id⟩)⟩

/-! ## Scenario inputs

The byte chunks of the spec's streaming scenario (all ASCII, so byte
values and codepoints coincide), and an enriched variant of the first
chunk whose frame carries the fields the `MistralStreamChunk` schema
requires. -/

def scenarioChunk1 : List Nat :=
  cps "data: \x7b\"choices\":[\x7b\"delta\":\x7b\"role\":\"assistant\",\"content\":\"Hel"

def scenarioChunk2 : List Nat := cps "lo\"\x7d\x7d]\x7d\ndata: [DONE]\n"

def scenarioChunk1Full : List Nat :=
  cps "data: \x7b\"id\":\"a\",\"object\":\"chat.completion.chunk\",\"created\":1,\"model\":\"mistral-7b\",\"choices\":[\x7b\"index\":0,\"delta\":\x7b\"role\":\"assistant\",\"content\":\"Hel"

/-! ## Helper lemmas shared by the claim theorems -/

theorem isDoneItem_streaming (modelName content role : List Nat) (isChat : Bool)
    (now : List Nat) :
    isDoneItem (.okItem (create_streaming_chunk modelName content role isChat now))
      = false := by
  cases isChat <;> rfl

theorem final_cons_nondone (modelName now : List Nat) (e : SentItem)
    (l : List SentItem) (he : isDoneItem e = false)
    (h : l.filter isDoneItem = []
        ∨ ∃ pre, l = pre ++ [SentItem.okItem (create_done_chunk modelName now)]
            ∧ pre.filter isDoneItem = []) :
    (e :: l).filter isDoneItem = []
    ∨ ∃ pre, e :: l = pre ++ [SentItem.okItem (create_done_chunk modelName now)]
        ∧ pre.filter isDoneItem = [] := by
  rcases h with hl | ⟨pre, hpre, hfil⟩
  · left; simp [List.filter_cons, he, hl]
  · right
    exact ⟨e :: pre, by simp [hpre], by simp [List.filter_cons, he, hfil]⟩

theorem processBufF_final (modelName : List Nat) (isChat : Bool) (now : List Nat) :
    ∀ (f : Nat) (buf : List Nat),
      ((processBufF modelName isChat now f buf).1.filter isDoneItem = [])
      ∨ ∃ pre, (processBufF modelName isChat now f buf).1
            = pre ++ [SentItem.okItem (create_done_chunk modelName now)]
          ∧ pre.filter isDoneItem = [] := by
  intro f
  induction f with
  | zero => intro buf; left; rfl
  | succ f ih =>
    intro buf
    simp only [processBufF]
    repeat' split
    all_goals try (left; rfl)
    all_goals try (right; exact ⟨[], rfl, rfl⟩)
    all_goals try exact ih _
    all_goals
      exact final_cons_nondone _ _ _ _ (isDoneItem_streaming _ _ _ _ _) (ih _)

/-! ## Claim theorems -/

/-- C1 (counterexample): the `[DONE]` sentinel only breaks the inner
drain loop, not the outer transport loop, so a stream consisting of two
chunks each carrying a `data: [DONE]` frame makes the producer send the
`Final` (done:true) record twice — refuting "exactly one Final record is
sent and no record after it, regardless of further chunks arriving from
the transport". -/
theorem C1_counterexample :
    runChunks 1000000 (cps "mistral:latest") true [] []
        [cps "data: [DONE]\n", cps "data: [DONE]\n"]
      = [SentItem.okItem (create_done_chunk (cps "mistral:latest") []),
         SentItem.okItem (create_done_chunk (cps "mistral:latest") [])]
    ∧ isDoneItem (SentItem.okItem (create_done_chunk (cps "mistral:latest") []))
        = true :=
  ⟨rfl, rfl⟩

/-- C1 (amended): within a single drain of the buffer (one successful
transport chunk), once the `[DONE]` frame is decoded exactly one `Final`
record is sent, it is the last item of that drain, and no `Final` is sent
before it; bytes remaining in the buffer are left unprocessed by that
drain.  (Across transport chunks the guarantee does not hold: the
producer keeps reading, as the counterexample shows.) -/
theorem C1_amended (modelName : List Nat) (isChat : Bool) (now buf : List Nat) :
    ((processBuffer modelName isChat now buf).1.filter isDoneItem = [])
    ∨ ∃ pre, (processBuffer modelName isChat now buf).1
          = pre ++ [SentItem.okItem (create_done_chunk modelName now)]
        ∧ pre.filter isDoneItem = [] :=
  processBufF_final modelName isChat now (buf.length + 1) buf

/-- C2 (counterexample): splitting the byte sequence `0xC3 0xA9 0x0A`
(the two-byte UTF-8 encoding of `é` and a newline) between its two UTF-8
bytes changes the lossy decoding — each half becomes U+FFFD — so the
reassembled frame differs from the single-chunk feed, refuting
split-invariance "at every possible byte offset" (no ceiling is exceeded:
the ceiling here is the default 1000000). -/
theorem C2_counterexample :
    feedAllBytesC 1000000 [] [[195], [169, 10]] = some [[65533, 65533]]
    ∧ feedAllBytesC 1000000 [] [[195, 169, 10]] = some [[233]]
    ∧ ([[65533, 65533]] : List (List Nat)) ≠ [[233]] :=
  ⟨rfl, rfl, by decide⟩

/-- C2 (amended): the Frame Reassembler is split-invariant over the
decoded text — equivalently over byte splits that fall on UTF-8 character
boundaries: for every way of splitting a codepoint sequence into chunks,
feeding the chunks yields exactly the same trimmed frames in the same
order as feeding the whole sequence at once, provided the whole sequence
respects the ceiling (which implies no intermediate buffer exceeds it). -/
theorem C2_amended (maxLen : Nat) (chunks : List (List Nat))
    (h : cpLen chunks.flatten ≤ maxLen) :
    feedAllC maxLen [] chunks = feedAllC maxLen [] [chunks.flatten] := by
  have hz : cpLen ([] : List Nat) = 0 := rfl
  have hfl : ([chunks.flatten] : List (List Nat)).flatten = chunks.flatten := by simp
  have h1 := feedAllC_eq maxLen chunks [] (by simp) (by omega)
  have h2 := feedAllC_eq maxLen [chunks.flatten] [] (by simp) (by rw [hfl]; omega)
  rw [hfl] at h2
  rw [h1, h2]

/-- C2 (witness): the amended theorem applied to a concrete split. -/
theorem C2_amended_witness :
    cpLen (List.flatten [cps "ab", cps "c\nd"]) ≤ 1000000
    ∧ feedAllC 1000000 [] [cps "ab", cps "c\nd"]
        = feedAllC 1000000 [] [List.flatten [cps "ab", cps "c\nd"]] :=
  ⟨by decide, C2_amended 1000000 [cps "ab", cps "c\nd"] (by decide)⟩

/-- C3: a single chunk longer than the configured ceiling always makes
the producer send the buffer-overflow error and stop, before any frame
from the chunk is extracted or forwarded — the ceiling check runs right
after the append and before any newline scanning (the lossy decoding of a
byte chunk is never shorter, in buffer bytes, than the raw chunk). -/
theorem C3_overflow (maxLen : Nat) (modelName : List Nat) (isChat : Bool)
    (now chunk : List Nat) (h : maxLen < chunk.length) :
    stepChunk maxLen modelName isChat now [] chunk
      = ([SentItem.errItem overflowMsg], utf8Lossy chunk, true) := by
  have hlen := utf8Lossy_len chunk
  simp only [stepChunk, List.nil_append]
  rw [if_pos (by omega)]

/-- C3 (witness): a ceiling of 3 with the 8-byte chunk `"data: x\n"`. -/
theorem C3_overflow_witness :
    3 < (cps "data: x\n").length
    ∧ stepChunk 3 (cps "m") true [] [] (cps "data: x\n")
        = ([SentItem.errItem overflowMsg], utf8Lossy (cps "data: x\n"), true) :=
  ⟨by decide, C3_overflow 3 (cps "m") true [] (cps "data: x\n") (by decide)⟩

/-- C4 (counterexample): the spec scenario's chunks do NOT produce a
partial record: the delta frame lacks the `id`, `object`, `created`,
`model` (and `choices[].index`) fields that `MistralStreamChunk`'s
deserializer requires, so `serde_json::from_str` fails, the frame is
silently skipped, and the pipeline emits exactly one client record — the
final one — not two. -/
theorem C4_counterexample :
    runChunks 1000000 (cps "mistral:latest") true [] []
        [scenarioChunk1, scenarioChunk2]
      = [SentItem.okItem (create_done_chunk (cps "mistral:latest") [])]
    ∧ isDoneItem (SentItem.okItem (create_done_chunk (cps "mistral:latest") []))
        = true :=
  ⟨rfl, rfl⟩

/-- C4 (amended): with the delta frame carrying the fields the stream
chunk schema requires (id/object/created/model and the choice's index),
the two-chunk stream in chat mode with model "mistral:latest" emits
exactly two client records: the partial chat record with role
"assistant" and reassembled content "Hello" (done:false), then the final
record (done:true). -/
theorem C4_amended (now : List Nat) :
    runChunks 1000000 (cps "mistral:latest") true now []
        [scenarioChunk1Full, scenarioChunk2]
      = [SentItem.okItem (create_streaming_chunk (cps "mistral:latest") (cps "Hello")
            (cps "assistant") true now),
         SentItem.okItem (create_done_chunk (cps "mistral:latest") now)] := rfl

/-- C5 (counterexample): round-tripping fails for the table entry
"mistral:7b" (it collapses to "mistral:latest"), and unknown names do not
map to themselves under the backend-to-client direction (it appends
":latest"). -/
theorem C5_counterexample :
    backendIdToName (translate_model_name (cps "mistral:7b")) = cps "mistral:latest"
    ∧ cps "mistral:latest" ≠ cps "mistral:7b"
    ∧ backendIdToName (cps "custom-model") = cps "custom-model" ++ cps ":latest"
    ∧ cps "custom-model" ++ cps ":latest" ≠ cps "custom-model" :=
  ⟨rfl, by decide, rfl, by decide⟩

/-- C5 (amended): `to_client(to_backend(x)) = x` holds exactly for the
":latest" entries of the table; the ":7b"/":8x7b" aliases round-trip to
the corresponding ":latest" name instead.  Unknown names pass through
`translate_model_name` unchanged, while the backend-to-client direction
maps an unknown id to `id ++ ":latest"`. -/
theorem C5_amended :
    (backendIdToName (translate_model_name (cps "mistral:latest"))
        = cps "mistral:latest")
    ∧ (backendIdToName (translate_model_name (cps "mixtral:latest"))
        = cps "mixtral:latest")
    ∧ (backendIdToName (translate_model_name (cps "mistral:7b"))
        = cps "mistral:latest")
    ∧ (backendIdToName (translate_model_name (cps "mixtral:8x7b"))
        = cps "mixtral:latest")
    ∧ (∀ n : List Nat, n ≠ cps "mistral:latest" → n ≠ cps "mistral:7b" →
        n ≠ cps "mixtral:latest" → n ≠ cps "mixtral:8x7b" →
        translate_model_name n = n)
    ∧ (∀ id : List Nat, id ≠ cps "mistral-7b" → id ≠ cps "mixtral-8x7b" →
        backendIdToName id = id ++ cps ":latest") := by
  refine ⟨rfl, rfl, rfl, rfl, ?_, ?_⟩
  · intro n h1 h2 h3 h4
    unfold translate_model_name
    rw [if_neg h1, if_neg h2, if_neg h3, if_neg h4]
  · intro id h1 h2
    unfold backendIdToName
    rw [if_neg h1, if_neg h2]

/-- C5 (witness): the amended theorem's quantified parts at a concrete
unknown name and id. -/
theorem C5_amended_witness :
    translate_model_name (cps "qwen:7b-custom") = cps "qwen:7b-custom"
    ∧ backendIdToName (cps "qwen-7b") = cps "qwen-7b" ++ cps ":latest" :=
  ⟨C5_amended.2.2.2.2.1 (cps "qwen:7b-custom")
      (by decide) (by decide) (by decide) (by decide),
   C5_amended.2.2.2.2.2 (cps "qwen-7b") (by decide) (by decide)⟩

/-- C6 (counterexample): a connection-level failure of the backend
model-listing call (connection refused) does NOT produce the fallback
list: the `?` on `send()` propagates `AppError::request_error`, rendered
as HTTP 502, not 200. -/
theorem C6_counterexample :
    handle_list_models [] (cps "http://mistral:8080/v1/models")
        (.transportFailure (cps "connection refused"))
      = .error (.requestError (cps "connection refused")
          (cps "http://mistral:8080/v1/models"))
    ∧ resultStatus (handle_list_models [] (cps "http://mistral:8080/v1/models")
        (.transportFailure (cps "connection refused"))) = 502
    ∧ (502 : Nat) ≠ 200 :=
  ⟨rfl, rfl, by decide⟩

/-- C6 (amended): the fixed two-entry fallback list (names
"mistral:latest"/"mistral:7b" with the MODEL_7B_SIZE constant) is
returned with HTTP 200 exactly when the backend call yields a response
with a non-success status; a connection-level failure instead propagates
as a request error (HTTP 502). -/
theorem C6_amended :
    (∀ (now url : List Nat) (status : Nat) (body : List Nat),
        isSuccessStatus status = false →
        handle_list_models now url (.httpResponse status body)
          = .ok ⟨defaultModels now⟩)
    ∧ (∀ now url msg : List Nat,
        handle_list_models now url (.transportFailure msg)
          = .error (.requestError msg url)) := by
  constructor
  · intro now url status body h
    simp [handle_list_models, h]
  · intro now url msg
    rfl

/-- C6 (witness): the amended theorem at backend status 500. -/
theorem C6_amended_witness :
    isSuccessStatus 500 = false
    ∧ handle_list_models [] (cps "u") (.httpResponse 500 [])
        = .ok ⟨defaultModels []⟩ :=
  ⟨rfl, C6_amended.1 [] (cps "u") 500 [] rfl⟩

/-- C7 (counterexample): `estimate_model_size` does not map
"custom-mixtral-8x7b-finetune" to the 8x7b constant — the "7b" arm is
checked first and "8x7b" contains "7b" as a substring. -/
theorem C7_counterexample :
    estimate_model_size (cps "custom-mixtral-8x7b-finetune") ≠ MODEL_8X7B_SIZE := by
  decide

/-- C7 (amended): the identifier "custom-mixtral-8x7b-finetune" is
estimated at MODEL_7B_SIZE (first-match-wins on the "7b" substring),
which numerically coincides with the default constant
(`DEFAULT_MODEL_SIZE = MODEL_7B_SIZE`) and differs from the 8x7b
constant. -/
theorem C7_amended :
    estimate_model_size (cps "custom-mixtral-8x7b-finetune") = MODEL_7B_SIZE
    ∧ DEFAULT_MODEL_SIZE = MODEL_7B_SIZE
    ∧ MODEL_7B_SIZE ≠ MODEL_8X7B_SIZE :=
  ⟨rfl, rfl, by decide⟩

/-- C8: a synchronous backend response with an empty choices list makes
the non-streaming translators return the default assistant message with
empty content (chat mode) and the empty response string (generate mode);
both converters are total. -/
theorem C8_empty_choices (resp : MistralChatResponse) (modelName now : List Nat)
    (h : resp.choices = []) :
    (convert_mistral_to_ollama_chat resp modelName now).message
        = ⟨cps "assistant", []⟩
    ∧ (convert_mistral_to_ollama_generate resp modelName now).response = [] := by
  constructor <;>
    simp [convert_mistral_to_ollama_chat, convert_mistral_to_ollama_generate, h]

/-- C8 (witness): the theorem at a concrete empty-choices response. -/
theorem C8_empty_choices_witness :
    (convert_mistral_to_ollama_chat ⟨[], [], 0, [], [], none⟩ (cps "m") []).message
        = ⟨cps "assistant", []⟩
    ∧ (convert_mistral_to_ollama_generate ⟨[], [], 0, [], [], none⟩ (cps "m") []).response
        = [] :=
  C8_empty_choices ⟨[], [], 0, [], [], none⟩ (cps "m") [] rfl

/-- C9: `translate_model_name` is idempotent — every output of the
mapping ("mistral-7b", "mixtral-8x7b", or the input itself) is a fixed
point of the mapping. -/
theorem C9_idempotent (n : List Nat) :
    translate_model_name (translate_model_name n) = translate_model_name n := by
  by_cases h1 : n = cps "mistral:latest"
  · subst h1; rfl
  · by_cases h2 : n = cps "mistral:7b"
    · subst h2; rfl
    · by_cases h3 : n = cps "mixtral:latest"
      · subst h3; rfl
      · by_cases h4 : n = cps "mixtral:8x7b"
        · subst h4; rfl
        · have hn : translate_model_name n = n := by
            unfold translate_model_name
            rw [if_neg h1, if_neg h2, if_neg h3, if_neg h4]
          rw [hn, hn]

/-- C10: the buffer-ceiling comparison is strict: a chunk step reports
overflow (and stops the producer) if and only if the accumulated buffer
length strictly exceeds `max_line_length`; at or below the ceiling —
including exact equality — the step processes the buffered lines
normally. -/
theorem C10_strict (maxLen : Nat) (modelName : List Nat) (isChat : Bool)
    (now buf chunk : List Nat) :
    ((stepChunk maxLen modelName isChat now buf chunk).2.2 = true
        ↔ maxLen < cpLen (buf ++ utf8Lossy chunk))
    ∧ (maxLen < cpLen (buf ++ utf8Lossy chunk) →
        stepChunk maxLen modelName isChat now buf chunk
          = ([SentItem.errItem overflowMsg], buf ++ utf8Lossy chunk, true))
    ∧ (cpLen (buf ++ utf8Lossy chunk) ≤ maxLen →
        stepChunk maxLen modelName isChat now buf chunk
          = ((processBuffer modelName isChat now (buf ++ utf8Lossy chunk)).1,
             (processBuffer modelName isChat now (buf ++ utf8Lossy chunk)).2,
             false)) := by
  by_cases h : maxLen < cpLen (buf ++ utf8Lossy chunk)
  · have hs : stepChunk maxLen modelName isChat now buf chunk
        = ([SentItem.errItem overflowMsg], buf ++ utf8Lossy chunk, true) := by
      simp only [stepChunk]
      rw [if_pos h]
    refine ⟨?_, fun _ => hs, fun h2 => absurd h (by omega)⟩
    rw [hs]
    simpa using h
  · have hs : stepChunk maxLen modelName isChat now buf chunk
        = ((processBuffer modelName isChat now (buf ++ utf8Lossy chunk)).1,
           (processBuffer modelName isChat now (buf ++ utf8Lossy chunk)).2,
           false) := by
      simp only [stepChunk]
      rw [if_neg h]
    refine ⟨?_, fun h2 => absurd h2 h, fun _ => hs⟩
    rw [hs]
    simpa using h

/-- C10 (witness): a buffer of exactly the ceiling length (13 bytes, the
"data: [DONE]\n" line) is accepted and processed normally. -/
theorem C10_strict_witness :
    cpLen ([] ++ utf8Lossy (cps "data: [DONE]\n")) ≤ 13
    ∧ stepChunk 13 (cps "m") true [] [] (cps "data: [DONE]\n")
        = ((processBuffer (cps "m") true [] ([] ++ utf8Lossy (cps "data: [DONE]\n"))).1,
           (processBuffer (cps "m") true [] ([] ++ utf8Lossy (cps "data: [DONE]\n"))).2,
           false) :=
  ⟨by decide,
   (C10_strict 13 (cps "m") true [] [] (cps "data: [DONE]\n")).2.2 (by decide)⟩
